import Mathlib

/-!
# Verification of the Oak core parser (`parse.go`)

This file is a shallow embedding of the parser in `parse.go` of the
SpcFORK/oak repository, together with theorems settling the claims about
it.  The repository ships only `main.go`, `parse.go` and `eval_test.go`;
the lexer (the `token`, `tokKind` and `pos` types and the `String`
rendering of tokens) and the evaluator live in files that are not part of
the published sources, so those few auxiliary pieces are modelled from the
specification and are marked as such.  Everything else is translated
function-by-function from `parse.go`.

Go constructs are embedded as follows:

* the mutable `parser` struct (a token slice plus a cursor) becomes an
  immutable structure that every operation threads explicitly;
* a Go function returning `(astNode, error)` becomes a function into
  `PRes astNode`, whose constructors distinguish a normal return
  (`ok`, carrying the updated parser state), an error return (`err`),
  a Go runtime panic (`panicked` — `parse.go` can genuinely panic, both
  through the explicit `panic` call in `expect` and through
  out-of-range slice indexing), and running out of fuel (`noFuel`);
* the recursion and the `for` loops of the Go code are embedded with an
  explicit fuel parameter, decremented once at the entry of every
  function; a result of `noFuel` for every fuel therefore witnesses a
  genuine infinite loop in the Go code, while an `ok`/`err`/`panicked`
  result for some fuel is the result the Go code computes.
-/

/-- Modelled from the spec (§3.1): the `pos` type (file, line, column)
lives in the lexer source, which is absent from the published files.
`parse.go` only ever constructs zero-valued positions. -/
structure pos where
  fileName : String := ""
  line : Nat := 0
  col : Nat := 0
deriving DecidableEq, Repr

/-- Modelled from the spec (§3.1): the closed enumeration of token kinds.
The names follow the kinds the spec lists plus the `unknown` kind that
`expect` in `parse.go` uses for its dummy return value. -/
inductive tokKind where
  | unknown
  | comma
  | dot
  | colon
  | underscore
  | qmark
  | exclam
  | ellipsis
  | leftParen
  | rightParen
  | leftBracket
  | rightBracket
  | leftBrace
  | rightBrace
  | assign
  | nonlocalAssign
  | branchArrow
  | pipeArrow
  | pushArrow
  | plus
  | minus
  | times
  | divide
  | modulus
  | eq
  | geq
  | leq
  | greater
  | less
  | neq
  | and
  | or
  | xor
  | ifKeyword
  | fnKeyword
  | withKeyword
  | trueLiteral
  | falseLiteral
  | stringLiteral
  | numberLiteral
  | identifier
deriving DecidableEq, Repr

/-- Modelled from the spec (§3.1): a token carries a kind, an optional
string payload and a position.  Zero values mirror Go's zero values. -/
structure token where
  kind : tokKind
  payload : String := ""
  tokPos : pos := {}
deriving DecidableEq, Repr

/-- Modelled from the spec: the `String` method of `token`, used by
`parse.go` in error and panic messages, is defined in the missing lexer
source.  It is rendered here as the token's surface text, with the
payload for literal and identifier tokens. -/
def tokString (t : token) : String :=
  match t.kind with
  | .unknown => "unknown"
  | .comma => ","
  | .dot => "."
  | .colon => ":"
  | .underscore => "_"
  | .qmark => "?"
  | .exclam => "!"
  | .ellipsis => "..."
  | .leftParen => "("
  | .rightParen => ")"
  | .leftBracket => "["
  | .rightBracket => "]"
  | .leftBrace => "\x7b"
  | .rightBrace => "\x7d"
  | .assign => ":="
  | .nonlocalAssign => "<-"
  | .branchArrow => "->"
  | .pipeArrow => "|>"
  | .pushArrow => "<<"
  | .plus => "+"
  | .minus => "-"
  | .times => "*"
  | .divide => "/"
  | .modulus => "%"
  | .eq => "="
  | .geq => ">="
  | .leq => "<="
  | .greater => ">"
  | .less => "<"
  | .neq => "!="
  | .and => "&"
  | .or => "|"
  | .xor => "^"
  | .ifKeyword => "if"
  | .fnKeyword => "fn"
  | .withKeyword => "with"
  | .trueLiteral => "true"
  | .falseLiteral => "false"
  | .stringLiteral => t.payload
  | .numberLiteral => t.payload
  | .identifier => t.payload

/-- The AST node variants of `parse.go`.  The Go `objectEntryNode`
struct (a key/value pair) is represented as a pair, and a branch of
`ifExprNode` likewise; `float64` payloads of `numberNode` are
represented by the decimal source string (`strconv.ParseFloat` is Go
library code; no claim inspects a float payload, and the Go zero value
`0.0` is represented by the empty string). -/
inductive astNode where
  | emptyNode
  | nullNode
  | stringNode (payload : String)
  | numberNode (isInteger : Bool) (intPayload : Int) (floatPayload : String)
  | booleanNode (payload : Bool)
  | atomNode (payload : String)
  | listNode (elems : List astNode)
  | objectNode (entries : List (astNode × astNode))
  | fnNode (name : String) (args : List String) (restArg : String) (body : astNode)
  | identifierNode (payload : String)
  | assignmentNode (isLocal : Bool) (left : astNode) (right : astNode)
  | propertyAccessNode (left : astNode) (right : astNode)
  | unaryNode (op : tokKind) (right : astNode)
  | binaryNode (op : tokKind) (left : astNode) (right : astNode)
  | fnCallNode (fn : astNode) (args : List astNode)
  | ifExprNode (cond : astNode) (branches : List (astNode × astNode))
  | blockNode (exprs : List astNode)

/-- `parseError` of `parse.go`: a reason string plus an embedded
position.  `parse.go` always constructs it with a zero position. -/
structure parseError where
  reason : String
  errPos : pos := {}
deriving DecidableEq, Repr

/-- The `parser` struct of `parse.go`: the token slice and the cursor. -/
structure parser where
  tokens : List token
  index : Nat
deriving Repr

def newParser (tokens : List token) : parser :=
  { tokens := tokens, index := 0 }

def parser.isEOF (p : parser) : Bool :=
  p.index = p.tokens.length

/-- Reading `p.tokens[i]` in Go: a read past the end of the slice is a
runtime panic ("index out of range"). -/
def tokAt (ts : List token) (i : Nat) : Except String token :=
  match ts[i]? with
  | some t => .ok t
  | none => .error "index out of range"

def parser.bump (p : parser) : parser :=
  { p with index := p.index + 1 }

/-- `parser.peek`: reads `p.tokens[p.index]` unguarded. -/
def parser.peek (p : parser) : Except String token :=
  tokAt p.tokens p.index

/-- `parser.peekAhead`: note the guard is `p.index+n > len(p.tokens)`
(not `>=`), so at `p.index+n == len(p.tokens)` the Go code falls
through to an out-of-range slice read. -/
def parser.peekAhead (p : parser) (n : Nat) : Except String token :=
  if p.index + n > p.tokens.length then
    -- Use comma as "nothing is here" value
    .ok { kind := .comma }
  else
    tokAt p.tokens (p.index + n)

/-- `parser.next`: reads `p.tokens[p.index]` unguarded, then increments
the cursor (the increment's `p.index < len(p.tokens)` guard always holds
once the read has succeeded). -/
def parser.next (p : parser) : Except String (token × parser) :=
  match tokAt p.tokens p.index with
  | .ok t => .ok (t, p.bump)
  | .error m => .error m

/-- Result of a Go parser function returning `(astNode, error)`:
a normal return with the updated parser state, an error return, a Go
runtime panic, or fuel exhaustion of the embedding. -/
inductive PRes (α : Type) where
  | ok (val : α) (st : parser)
  | err (e : parseError)
  | panicked (msg : String)
  | noFuel

/-- Sequencing of parser results: propagate `err`, `panicked` and
`noFuel`, continue on `ok`.  This mirrors Go's
`if err != nil { return nil, err }` idiom (with panics propagating
by unwinding). -/
def PRes.bind {α β : Type} (r : PRes α) (f : α → parser → PRes β) : PRes β :=
  match r with
  | .ok a s => f a s
  | .err e => .err e
  | .panicked m => .panicked m
  | .noFuel => .noFuel

/-- Lift a Go expression that can only panic (a slice read). -/
def liftP {β : Type} (r : Except String token) (f : token → PRes β) : PRes β :=
  match r with
  | .ok t => f t
  | .error m => .panicked m

/-- `parser.expect` of `parse.go`: at EOF it returns a `parseError`
("Unexpected end of input, …"); on a kind mismatch it executes
`panic(…)` — the `return … parseError{reason: "Unexpected token …"}`
after the panic is unreachable Go code. -/
def parser.expect (p : parser) (kind : tokKind) : PRes token :=
  if p.isEOF then
    .err { reason := "Unexpected end of input, expected " ++ tokString { kind := kind } }
  else
    match p.next with
    | .error m => .panicked m
    | .ok (nt, p1) =>
      if nt.kind = kind then .ok nt p1
      else .panicked ("expected " ++ tokString { kind := kind } ++ " got " ++ tokString nt)

/-- Go's `strconv.ParseInt(s, 10, 64)` (library code): optional sign,
one or more decimal digits, value within the signed 64-bit range. -/
def parseInt64 (s : String) : Except String Int :=
  let cs := s.data
  let signAndDigits : Int × List Char :=
    match cs with
    | '+' :: r => (1, r)
    | '-' :: r => (-1, r)
    | r => (1, r)
  let sign := signAndDigits.1
  let ds := signAndDigits.2
  if ds.isEmpty then .error "invalid syntax"
  else if !ds.all Char.isDigit then .error "invalid syntax"
  else
    let v : Nat := ds.foldl (fun a c => a * 10 + (c.toNat - 48)) 0
    let iv : Int := sign * (v : Int)
    if iv < -(2 ^ 63) then .error "value out of range"
    else if iv ≥ 2 ^ 63 then .error "value out of range"
    else .ok iv

/-- Go's `strconv.ParseFloat(s, 64)` (library code), restricted to the
shapes the lexer can produce (digits and one dot): the parsed value is
represented by the source string itself, since no claim inspects it. -/
def parseFloat64 (s : String) : Except String String :=
  if s.data.any Char.isDigit ∧ s.data.all (fun c => c.isDigit ∨ c = '.')
      ∧ (s.data.filter (fun c => c = '.')).length ≤ 1 then
    .ok s
  else
    .error "invalid syntax"

mutual

/-- `parser.parseMaybeAssignment` (parse.go:303-321).  The unguarded
`p.peek()` is a runtime panic at EOF. -/
def parseMaybeAssignment (fuel : Nat) (left : astNode) (p : parser) : PRes astNode :=
  match fuel with
  | 0 => .noFuel
  | fuel + 1 =>
    liftP p.peek fun t =>
      if t.kind ≠ .assign ∧ t.kind ≠ .nonlocalAssign then
        .ok left p
      else
        match p.next with
        | .error m => .panicked m
        | .ok (nt, p1) =>
          (nextNode fuel p1).bind fun right p2 =>
            .ok (.assignmentNode (nt.kind == .assign) left right) p2
termination_by structural fuel

/-- `parser.parseAtom` (parse.go:323-564).  The `ifKeyword` and
`withKeyword` cases are `// TODO` in the source and fall through, like
every kind without a case, to `return booleanNode{payload: false}, nil`. -/
def parseAtom (fuel : Nat) (p : parser) : PRes astNode :=
  match fuel with
  | 0 => .noFuel
  | fuel + 1 =>
    match p.next with
    | .error m => .panicked m
    | .ok (tok, p1) =>
      match tok.kind with
      | .qmark => .ok .nullNode p1
      | .stringLiteral => .ok (.stringNode tok.payload) p1
      | .numberLiteral =>
        if tok.payload.data.contains '.' then
          match parseFloat64 tok.payload with
          | .error m => .err { reason := m }
          | .ok f => .ok (.numberNode false 0 f) p1
        else
          match parseInt64 tok.payload with
          | .error m => .err { reason := m }
          | .ok n => .ok (.numberNode true n "") p1
      | .trueLiteral => .ok (.booleanNode true) p1
      | .falseLiteral => .ok (.booleanNode false) p1
      | .colon =>
        liftP p1.peek fun t =>
          if t.kind = .identifier then
            match p1.next with
            | .error m => .panicked m
            | .ok (nt, p2) => .ok (.atomNode nt.payload) p2
          else
            .err { reason := "Expected identifier after ':', got " ++ tokString t }
      | .leftBracket =>
        (listItemsLoop fuel [] p1).bind fun items p2 =>
          (p2.expect .rightBracket).bind fun _ p3 =>
            parseMaybeAssignment fuel (.listNode items) p3
      | .leftBrace =>
        -- empty {} is always considered an object -- an empty block is illegal
        liftP p1.peek fun t =>
          if t.kind = .rightBrace then
            .ok (.objectNode []) p1.bump
          else
            (nextNode fuel p1).bind fun firstExpr p2 =>
              braceTail fuel firstExpr p2
      | .fnKeyword => fnTail fuel p1
      | .underscore => .ok .emptyNode p1
      | .identifier => parseMaybeAssignment fuel (.identifierNode tok.payload) p1
      | .minus | .exclam =>
        (nextNode fuel p1).bind fun right p2 =>
          .ok (.unaryNode tok.kind right) p2
      | .leftParen =>
        (parenExprsLoop fuel [] p1).bind fun exprs p2 =>
          (p2.expect .rightParen).bind fun _ p3 =>
            .ok (.blockNode exprs) p3
      | _ => .ok (.booleanNode false) p1
termination_by structural fuel

/-- The body of the non-empty `{…}` case of `parseAtom`
(parse.go:386-462), from the point where the first inner expression has
been parsed: one-token lookahead for `:` decides object vs. block. -/
def braceTail (fuel : Nat) (firstExpr : astNode) (p : parser) : PRes astNode :=
  match fuel with
  | 0 => .noFuel
  | fuel + 1 =>
    if p.isEOF then
      .err { reason := "Unexpected end of input inside block or object" }
    else
      liftP p.peek fun t =>
        if t.kind = .colon then
          -- it's an object
          (nextNode fuel p.bump).bind fun valExpr p2 =>
            (p2.expect .comma).bind fun _ p3 =>
              (objectEntriesLoop fuel [(firstExpr, valExpr)] p3).bind fun entries p4 =>
                (p4.expect .rightBrace).bind fun _ p5 =>
                  parseMaybeAssignment fuel (.objectNode entries) p5
        else
          -- it's a block
          (p.expect .comma).bind fun _ p2 =>
            (blockExprsLoop fuel [firstExpr] p2).bind fun exprs p3 =>
              (p3.expect .rightBrace).bind fun _ p4 =>
                .ok (.blockNode exprs) p4
termination_by structural fuel

/-- The entry loop of the object branch (parse.go:411-432). -/
def objectEntriesLoop (fuel : Nat) (acc : List (astNode × astNode)) (p : parser) :
    PRes (List (astNode × astNode)) :=
  match fuel with
  | 0 => .noFuel
  | fuel + 1 =>
    if p.isEOF then .ok acc p
    else
      liftP p.peek fun t =>
        if t.kind = .rightBrace then .ok acc p
        else
          (nextNode fuel p).bind fun key p1 =>
            (p1.expect .colon).bind fun _ p2 =>
              (nextNode fuel p2).bind fun val p3 =>
                (p3.expect .comma).bind fun _ p4 =>
                  objectEntriesLoop fuel (acc ++ [(key, val)]) p4
termination_by structural fuel

/-- The expression loop of the block branch (parse.go:447-457). -/
def blockExprsLoop (fuel : Nat) (acc : List astNode) (p : parser) : PRes (List astNode) :=
  match fuel with
  | 0 => .noFuel
  | fuel + 1 =>
    if p.isEOF then .ok acc p
    else
      liftP p.peek fun t =>
        if t.kind = .rightBrace then .ok acc p
        else
          (nextNode fuel p).bind fun expr p1 =>
            (p1.expect .comma).bind fun _ p2 =>
              blockExprsLoop fuel (acc ++ [expr]) p2
termination_by structural fuel

/-- The element loop of the list-literal branch (parse.go:361-372). -/
def listItemsLoop (fuel : Nat) (acc : List astNode) (p : parser) : PRes (List astNode) :=
  match fuel with
  | 0 => .noFuel
  | fuel + 1 =>
    if p.isEOF then .ok acc p
    else
      liftP p.peek fun t =>
        if t.kind = .rightBracket then .ok acc p
        else
          (nextNode fuel p).bind fun node p1 =>
            (p1.expect .comma).bind fun _ p2 =>
              listItemsLoop fuel (acc ++ [node]) p2
termination_by structural fuel

/-- The expression loop of the parenthesized-block branch
(parse.go:546-557). -/
def parenExprsLoop (fuel : Nat) (acc : List astNode) (p : parser) : PRes (List astNode) :=
  match fuel with
  | 0 => .noFuel
  | fuel + 1 =>
    if p.isEOF then .ok acc p
    else
      liftP p.peek fun t =>
        if t.kind = .rightParen then .ok acc p
        else
          (nextNode fuel p).bind fun expr p1 =>
            (p1.expect .comma).bind fun _ p2 =>
              parenExprsLoop fuel (acc ++ [expr]) p2
termination_by structural fuel

/-- The `fnKeyword` branch of `parseAtom` (parse.go:463-502), up to the
argument list: optional name, optional parenthesized argument list. -/
def fnTail (fuel : Nat) (p : parser) : PRes astNode :=
  match fuel with
  | 0 => .noFuel
  | fuel + 1 =>
    liftP p.peek fun t =>
      let np : String × parser := if t.kind = .identifier then (t.payload, p.bump) else ("", p)
      liftP np.2.peek fun t1 =>
        if t1.kind = .leftParen then
          (fnArgsLoop fuel [] "" np.2.bump).bind fun ar p2 =>
            (p2.expect .rightParen).bind fun _ p3 =>
              fnBody fuel np.1 ar.1 ar.2 p3
        else
          fnBody fuel np.1 [] "" np.2
termination_by structural fuel

/-- The argument loop of the `fnKeyword` branch (parse.go:475-498).
After an `ellipsis` the code records the rest argument, then *expects a
comma* before breaking out of the loop. -/
def fnArgsLoop (fuel : Nat) (args : List String) (restArg : String) (p : parser) :
    PRes (List String × String) :=
  match fuel with
  | 0 => .noFuel
  | fuel + 1 =>
    if p.isEOF then .ok (args, restArg) p
    else
      liftP p.peek fun t =>
        if t.kind = .rightParen then .ok (args, restArg) p
        else
          (p.expect .identifier).bind fun arg p1 =>
            liftP p1.peek fun t1 =>
              if t1.kind = .ellipsis then
                -- maybe this is a rest arg; `break` after expecting a comma
                (p1.bump.expect .comma).bind fun _ p2 =>
                  .ok (args, arg.payload) p2
              else
                (p1.expect .comma).bind fun _ p2 =>
                  fnArgsLoop fuel (args ++ [arg.payload]) restArg p2
termination_by structural fuel

/-- The body selection of the `fnKeyword` branch (parse.go:504-524):
`fn {}` takes an empty block as the body; note the `p.peekAhead(1)`
reached when the next token is `leftBrace`. -/
def fnBody (fuel : Nat) (name : String) (args : List String) (restArg : String)
    (p : parser) : PRes astNode :=
  match fuel with
  | 0 => .noFuel
  | fuel + 1 =>
    liftP p.peek fun t =>
      if t.kind = .leftBrace then
        liftP (p.peekAhead 1) fun t1 =>
          if t1.kind = .rightBrace then
            .ok (.fnNode name args restArg (.blockNode [])) p.bump.bump
          else
            (nextNode fuel p).bind fun body p2 =>
              .ok (.fnNode name args restArg body) p2
      else
        (nextNode fuel p).bind fun body p2 =>
          .ok (.fnNode name args restArg body) p2
termination_by structural fuel

/-- `parser.nextNode` (parse.go:566-623): an atom followed by the
postfix loop. -/
def nextNode (fuel : Nat) (p : parser) : PRes astNode :=
  match fuel with
  | 0 => .noFuel
  | fuel + 1 =>
    (parseAtom fuel p).bind fun node p1 =>
      nextNodeLoop fuel node p1
termination_by structural fuel

/-- The postfix loop of `parser.nextNode` (parse.go:572-619).  The
arithmetic/comparison case is `// TODO: binaryNode` and the default
case is `// TODO: infix call`: both loop bodies are empty, so the loop
re-reads the same token without advancing. -/
def nextNodeLoop (fuel : Nat) (node : astNode) (p : parser) : PRes astNode :=
  match fuel with
  | 0 => .noFuel
  | fuel + 1 =>
    if p.isEOF then .ok node p
    else
      liftP p.peek fun t =>
        if t.kind = .comma then .ok node p
        else
          match t.kind with
          | .dot =>
            (parseAtom fuel p.bump).bind fun right p2 =>
              nextNodeLoop fuel (.propertyAccessNode node right) p2
          | .leftParen =>
            (callArgsLoop fuel [] p.bump).bind fun args p2 =>
              (p2.expect .rightParen).bind fun _ p3 =>
                nextNodeLoop fuel (.fnCallNode node args) p3
          | .plus | .minus | .times | .divide | .modulus
          | .greater | .less | .eq | .geq | .leq =>
            nextNodeLoop fuel node p
          | .colon =>
            -- node is object key
            .ok node p
          | .rightParen | .rightBracket | .rightBrace =>
            -- mistyped right delimiter
            .ok node p
          | _ =>
            nextNodeLoop fuel node p
termination_by structural fuel

/-- The argument loop of the call case of the postfix loop
(parse.go:588-599). -/
def callArgsLoop (fuel : Nat) (acc : List astNode) (p : parser) : PRes (List astNode) :=
  match fuel with
  | 0 => .noFuel
  | fuel + 1 =>
    if p.isEOF then .ok acc p
    else
      liftP p.peek fun t =>
        if t.kind = .rightParen then .ok acc p
        else
          (nextNode fuel p).bind fun arg p1 =>
            (p1.expect .comma).bind fun _ p2 =>
              callArgsLoop fuel (acc ++ [arg]) p2
termination_by structural fuel

/-- The top-level loop of `parser.parse` (parse.go:625-642).  The Go
function returns the partial node list alongside an error; the error
constructor here discards it, since every caller checks the error
first. -/
def parseLoop (fuel : Nat) (nodes : List astNode) (p : parser) : PRes (List astNode) :=
  match fuel with
  | 0 => .noFuel
  | fuel + 1 =>
    if p.isEOF then .ok nodes p
    else
      (nextNode fuel p).bind fun node p1 =>
        (p1.expect .comma).bind fun _ p2 =>
          parseLoop fuel (nodes ++ [node]) p2

termination_by structural fuel
end

/-- `parser.parse` (parse.go:625-642). -/
def parser.parse (fuel : Nat) (p : parser) : PRes (List astNode) :=
  parseLoop fuel [] p

/-! ## Shared helpers for the claim theorems -/

/-- Modelled from the spec (§3.1/§4.1): the token the lexer emits for a
decimal numeral. -/
def numTok (s : String) : token :=
  { kind := .numberLiteral, payload := s }

/-- Modelled from the spec (§3.1/§4.1): the token the lexer emits for an
identifier. -/
def identTok (s : String) : token :=
  { kind := .identifier, payload := s }

/-- A token with only a kind (operators, delimiters, keywords). -/
def symTok (k : tokKind) : token :=
  { kind := k }

theorem lt_of_getElem?_some {α : Type} {l : List α} {i : Nat} {a : α}
    (h : l[i]? = some a) : i < l.length := by
  by_contra hle
  rw [List.getElem?_eq_none (Nat.le_of_not_lt hle)] at h
  exact Option.noConfusion h

theorem isEOF_false_of_peek {s : parser} {t : token}
    (h : s.tokens[s.index]? = some t) : s.isEOF = false := by
  have hlt := lt_of_getElem?_some h
  simp [parser.isEOF]
  omega

/-- The token kinds on which the postfix loop of `nextNode` spins
without progress: every kind except the loop guard (`comma`), the two
cases with a body (`dot`, `leftParen`) and the returning cases
(`colon` and the right delimiters).  The arithmetic and comparison
kinds land in the empty `// TODO: binaryNode` case and all remaining
kinds in the empty `// TODO: infix call` default case. -/
def stuckKind (k : tokKind) : Bool :=
  match k with
  | .comma | .dot | .leftParen | .colon | .rightParen | .rightBracket | .rightBrace => false
  | _ => true

/-- When the next token has a stuck kind, the postfix loop of
`nextNode` never terminates, whatever the fuel. -/
theorem nextNodeLoop_stuck {s : parser} {t : token}
    (hpeek : s.tokens[s.index]? = some t) (hstuck : stuckKind t.kind = true) :
    ∀ (fuel : Nat) (node : astNode), nextNodeLoop fuel node s = .noFuel := by
  intro fuel
  induction fuel with
  | zero => intro node; simp [nextNodeLoop]
  | succ n ih =>
    intro node
    have hne := isEOF_false_of_peek hpeek
    have hcomma : ¬ t.kind = tokKind.comma := by
      intro hk; rw [hk] at hstuck; simp [stuckKind] at hstuck
    rw [nextNodeLoop]
    simp only [hne, Bool.false_eq_true, if_false, parser.peek, tokAt, hpeek, liftP,
      if_neg hcomma]
    cases hk : t.kind <;> simp [hk, stuckKind] at hstuck ⊢ <;> exact ih node

/-! ## C1, C3, C7: divergence of the published parser -/

/-- Modelled from the spec (§4.1): the token stream of the program
`1 + 2` (no terminator is emitted at EOF). -/
def onePlusTwoTokens : List token :=
  [numTok "1", symTok .plus, numTok "2"]

theorem nextNode_onePlusTwo_noFuel :
    ∀ n : Nat, nextNode n (newParser onePlusTwoTokens) = .noFuel
  | 0 => rfl
  | 1 => rfl
  | (k + 2) =>
    nextNodeLoop_stuck (s := { tokens := onePlusTwoTokens, index := 1 })
      (t := symTok .plus) rfl rfl (k + 1) (.numberNode true 1 "")

/-- C1: REFUTED — code bug.  The claim says `Context::eval` on `1 + 2`
returns the int value 3, the parser building a binary addition node.
In the published `parse.go` the postfix loop of `nextNode` has an empty
`// TODO: binaryNode` case for `plus`, so on the token stream of
`1 + 2` the loop re-reads the `plus` token forever: `parser.parse`
exhausts every fuel (the Go code never returns), no node is produced
and `Context::eval` cannot return 3, contradicting `TestBasicBinaryExpr`
and `TestCommentAndNewline` in `eval_test.go`. -/
theorem c1_onePlusTwo_parse_diverges :
    ∀ fuel : Nat, (newParser onePlusTwoTokens).parse fuel = .noFuel := by
  intro fuel
  match fuel with
  | 0 => rfl
  | n + 1 =>
    have h := nextNode_onePlusTwo_noFuel n
    have hEOF : (newParser onePlusTwoTokens).isEOF = false := rfl
    simp [parser.parse, parseLoop, hEOF, h, PRes.bind]

/-- Modelled from the spec (§4.1): the token stream of `x |> f`. -/
def pipeTokens : List token :=
  [identTok "x", symTok .pipeArrow, identTok "f"]

theorem nextNode_pipe_noFuel :
    ∀ n : Nat, nextNode n (newParser pipeTokens) = .noFuel
  | 0 => rfl
  | 1 => rfl
  | 2 => rfl
  | (k + 3) =>
    nextNodeLoop_stuck (s := { tokens := pipeTokens, index := 1 })
      (t := symTok .pipeArrow) rfl rfl (k + 2) (.identifierNode "x")

/-- C3: REFUTED — code bug.  The claim says `parser.parse` terminates on
every finite token sequence because the postfix loop of `nextNode`
makes progress on every iteration, including on arithmetic, comparison,
pipe and push operator tokens.  In the published `parse.go` the loop
body is empty for exactly those tokens (the `// TODO: binaryNode` case
for arithmetic and comparison kinds and the `// TODO: infix call`
default case that `pipeArrow` and `pushArrow` fall into), so the loop
does not advance: on the token stream of `x |> f` the parser runs
forever, exhausting every fuel. -/
theorem c3_parse_diverges_on_pipe :
    ∀ fuel : Nat, (newParser pipeTokens).parse fuel = .noFuel := by
  intro fuel
  match fuel with
  | 0 => rfl
  | n + 1 =>
    have h := nextNode_pipe_noFuel n
    have hEOF : (newParser pipeTokens).isEOF = false := rfl
    simp [parser.parse, parseLoop, hEOF, h, PRes.bind]

/-- Modelled from the spec (§4.1): the token stream of
`if 12 { 10 -> :a, 11, 12 -> :b, _ -> :c }`. -/
def ifTwelveTokens : List token :=
  [symTok .ifKeyword, numTok "12", symTok .leftBrace,
   numTok "10", symTok .branchArrow, symTok .colon, identTok "a", symTok .comma,
   numTok "11", symTok .comma,
   numTok "12", symTok .branchArrow, symTok .colon, identTok "b", symTok .comma,
   symTok .underscore, symTok .branchArrow, symTok .colon, identTok "c",
   symTok .rightBrace]

theorem nextNode_ifTwelve_noFuel :
    ∀ n : Nat, nextNode n (newParser ifTwelveTokens) = .noFuel
  | 0 => rfl
  | 1 => rfl
  | (k + 2) =>
    nextNodeLoop_stuck (s := { tokens := ifTwelveTokens, index := 1 })
      (t := numTok "12") rfl rfl (k + 1) (.booleanNode false)

/-- C7: REFUTED — code bug.  The claim says the program
`if 12 { 10 -> :a, 11, 12 -> :b, _ -> :c }` evaluates to the atom `:b`.
In the published `parse.go` the `ifKeyword` case of `parseAtom` is
`// TODO` and falls through to `return booleanNode{payload: false}, nil`
(a fabricated node), after which the postfix loop of `nextNode` peeks
the `12` token and spins in its empty default case forever: the parse
of this program exhausts every fuel, no `ifExprNode` is ever built, and
evaluation can never return `:b`, contradicting the if-expression tests
in `eval_test.go`. -/
theorem c7_ifTwelve_parse_diverges :
    ∀ fuel : Nat, (newParser ifTwelveTokens).parse fuel = .noFuel := by
  intro fuel
  match fuel with
  | 0 => rfl
  | n + 1 =>
    have h := nextNode_ifTwelve_noFuel n
    have hEOF : (newParser ifTwelveTokens).isEOF = false := rfl
    simp [parser.parse, parseLoop, hEOF, h, PRes.bind]

/-! ## C2, C4, C8, C9: error behavior of the published parser -/

/-- C2: REFUTED — code bug.  The claim says that on an unexpected token
the parser returns a parse error (position and reason) and never a
fabricated AST node.  In the published `parse.go`, `parseAtom` has no
case for a leading `dot` token (nor for several other kinds) and falls
through to `return booleanNode{payload: false}, nil`: on the token
stream of the source `.,` the parse *succeeds* with the fabricated node
`false`.  (Independently, `expect` executes `panic(…)` on a mismatched
token instead of returning its — unreachable — parse error.) -/
theorem c2_unexpected_token_fabricates_node :
    (newParser [symTok .dot, symTok .comma]).parse 9 =
      .ok [.booleanNode false] { tokens := [symTok .dot, symTok .comma], index := 2 } :=
  rfl

/-- C4: REFUTED — code bug.  The claim (and the spec) say the parser
tolerates a token stream that ends right after a complete top-level
expression with no trailing comma.  The published `parser.parse`
unconditionally runs `expect(comma)` after every top-level expression,
and `expect` at EOF returns the parse error
"Unexpected end of input, expected ','": on the token stream of the
program `64710` (one numeral, no trailing newline, hence no trailing
comma — `TestIntegerLiteral` in `eval_test.go`) the parse errors
instead of returning the number node. -/
theorem c4_no_trailing_comma_is_error :
    (newParser [numTok "64710"]).parse 9 =
      .err { reason := "Unexpected end of input, expected ," } :=
  rfl

/-- Modelled from the spec (§4.1): the token stream of the
`TestRestArgs` program
`fn getRest(first, rest...) { rest }` + `getRest(1, 2, 3, 4, 5)`
(implicit commas inserted at the newlines after `rest`, after the
closing brace and after the final parenthesis). -/
def restArgsTokens : List token :=
  [symTok .fnKeyword, identTok "getRest", symTok .leftParen, identTok "first",
   symTok .comma, identTok "rest", symTok .ellipsis, symTok .rightParen,
   symTok .leftBrace, identTok "rest", symTok .comma, symTok .rightBrace, symTok .comma,
   identTok "getRest", symTok .leftParen, numTok "1", symTok .comma, numTok "2",
   symTok .comma, numTok "3", symTok .comma, numTok "4", symTok .comma, numTok "5",
   symTok .rightParen, symTok .comma]

/-- C8: REFUTED — code bug.  The claim says a parenthesized argument
list may end with `identifier ...` immediately followed by the closing
parenthesis (no comma), and that parsing then succeeds with that
identifier as the rest argument.  In the published `parse.go`, after
consuming the `ellipsis` the argument loop runs `expect(comma)` before
breaking; with `)` next, `expect` hits its `panic` call: parsing the
`TestRestArgs` program panics instead of producing an `fnNode`. -/
theorem c8_rest_arg_without_comma_panics :
    (newParser restArgsTokens).parse 40 = .panicked "expected , got )" :=
  rfl

/-- C9: REFUTED — code bug.  The claim says `parser.parse` never
executes a Go panic and never indexes the token slice out of bounds.
The `expect` function of the published `parse.go` contains a reachable
`panic` (its error return is dead code): on the token stream of the
program `[1]` the list-literal loop parses the element, then
`expect(comma)` meets `]` and panics.  (The claim fails again through
`peekAhead`, whose bound check uses `>` instead of `>=` and reads one
past the end of the slice, and through the unguarded `peek()` calls of
`parseMaybeAssignment` and the `fn` branch at EOF.) -/
theorem c9_expect_panics_on_mismatch :
    (newParser [symTok .leftBracket, numTok "1", symTok .rightBracket]).parse 20 =
      .panicked "expected , got ]" :=
  rfl

/-! ## C10: a colon not followed by an identifier is a parse error -/

/-- C10: CONFIRMED.  Whenever the token at the cursor is a `colon` and
the following token exists but is not an `identifier` (keywords such as
`if`, `fn`, `with`, `true`, `false` included), `parseAtom` returns the
parse error "Expected identifier after ':', got …" and produces no atom
node. -/
theorem c10_colon_non_identifier_is_error (fuel : Nat) (p : parser) (ct t : token)
    (h1 : p.tokens[p.index]? = some ct) (hk1 : ct.kind = tokKind.colon)
    (h2 : p.tokens[p.index + 1]? = some t) (hk2 : t.kind ≠ tokKind.identifier) :
    parseAtom (fuel + 1) p =
      .err { reason := "Expected identifier after ':', got " ++ tokString t } := by
  rw [parseAtom]
  simp only [parser.next, tokAt, h1, hk1, parser.peek, parser.bump, h2, liftP,
    if_neg hk2]

/-- Witness for C10 at the token stream of `:if`. -/
theorem c10_witness :
    parseAtom 5 (newParser [symTok .colon, symTok .ifKeyword]) =
      .err { reason := "Expected identifier after ':', got if" } :=
  c10_colon_non_identifier_is_error 4 (newParser [symTok .colon, symTok .ifKeyword])
    (symTok .colon) (symTok .ifKeyword) rfl rfl rfl (by decide)

/-! ## C6: `{}` is the empty object, except as a `fn` body -/

/-- C6: CONFIRMED.  (1) Whenever the two tokens at the cursor are
`{` `}`, `parseAtom` returns the empty object literal node.
(2) Whenever the three tokens at the cursor are `fn` `{` `}`
(an anonymous function with no argument list), `parseAtom` returns a
function node whose body is an empty block, not an empty object:
the keyword `fn` forces block context for a literal empty-brace body. -/
theorem c6_empty_braces :
    (∀ (fuel : Nat) (p : parser) (t1 t2 : token),
      p.tokens[p.index]? = some t1 → t1.kind = tokKind.leftBrace →
      p.tokens[p.index + 1]? = some t2 → t2.kind = tokKind.rightBrace →
      parseAtom (fuel + 1) p = .ok (.objectNode []) p.bump.bump) ∧
    (∀ (fuel : Nat) (p : parser) (t1 t2 t3 : token),
      p.tokens[p.index]? = some t1 → t1.kind = tokKind.fnKeyword →
      p.tokens[p.index + 1]? = some t2 → t2.kind = tokKind.leftBrace →
      p.tokens[p.index + 2]? = some t3 → t3.kind = tokKind.rightBrace →
      parseAtom (fuel + 3) p = .ok (.fnNode "" [] "" (.blockNode [])) p.bump.bump.bump) := by
  constructor
  · intro fuel p t1 t2 h1 hk1 h2 hk2
    rw [parseAtom]
    simp only [parser.next, tokAt, h1, hk1, parser.peek, parser.bump, h2, hk2, liftP,
      if_pos rfl, if_true]
  · intro fuel p t1 t2 t3 h1 hk1 h2 hk2 h3 hk3
    have hlt3 := lt_of_getElem?_some h3
    rw [parseAtom]
    simp only [parser.next, tokAt, h1, hk1, liftP]
    rw [fnTail]
    simp only [parser.peek, parser.bump, tokAt, h2, hk2, liftP, reduceCtorEq, if_false]
    rw [fnBody]
    simp only [parser.peek, parser.bump, tokAt, h2, hk2, liftP, if_pos rfl,
      parser.peekAhead]
    rw [if_true, show p.index + 1 + 1 = p.index + 2 from rfl, if_neg (by omega)]
    simp only [h3, hk3, if_pos rfl, if_true]

/-- Witness for C6 at the token streams of `{}` and `fn {}`. -/
theorem c6_witness :
    parseAtom 5 (newParser [symTok .leftBrace, symTok .rightBrace]) =
      .ok (.objectNode []) { tokens := [symTok .leftBrace, symTok .rightBrace], index := 2 } ∧
    parseAtom 7 (newParser [symTok .fnKeyword, symTok .leftBrace, symTok .rightBrace]) =
      .ok (.fnNode "" [] "" (.blockNode []))
        { tokens := [symTok .fnKeyword, symTok .leftBrace, symTok .rightBrace], index := 3 } :=
  ⟨c6_empty_braces.1 4 (newParser [symTok .leftBrace, symTok .rightBrace])
      (symTok .leftBrace) (symTok .rightBrace) rfl rfl rfl rfl,
   c6_empty_braces.2 4 (newParser [symTok .fnKeyword, symTok .leftBrace, symTok .rightBrace])
      (symTok .fnKeyword) (symTok .leftBrace) (symTok .rightBrace) rfl rfl rfl rfl rfl rfl⟩

/-! ## C5: block vs. object decided by one-token lookahead -/

theorem PRes.bind_eq_ok {α β : Type} {r : PRes α} {f : α → parser → PRes β} {b : β}
    {s' : parser} (h : r.bind f = .ok b s') :
    ∃ a s, r = .ok a s ∧ f a s = .ok b s' := by
  cases r with
  | ok a s => exact ⟨a, s, rfl, h⟩
  | err e => exact absurd h (by simp [PRes.bind])
  | panicked m => exact absurd h (by simp [PRes.bind])
  | noFuel => exact absurd h (by simp [PRes.bind])

/-- A successful `parseMaybeAssignment` returns either its argument
node unchanged or an assignment node whose left side is that node. -/
theorem parseMaybeAssignment_shape {fuel : Nat} {left res : astNode} {p p' : parser}
    (h : parseMaybeAssignment fuel left p = .ok res p') :
    res = left ∨ ∃ b r, res = astNode.assignmentNode b left r := by
  match fuel with
  | 0 => exact absurd h (by simp [parseMaybeAssignment])
  | fuel + 1 =>
    rw [parseMaybeAssignment] at h
    cases hp : p.peek with
    | error m => rw [hp] at h; exact absurd h (by simp [liftP])
    | ok t =>
      rw [hp] at h
      simp only [liftP] at h
      split at h
      · injection h with h1 h2
        exact Or.inl h1.symm
      · cases hn : p.next with
        | error m => rw [hn] at h; exact absurd h (by simp)
        | ok tp =>
          obtain ⟨nt, p1⟩ := tp
          rw [hn] at h
          obtain ⟨right, p2, hr, h⟩ := PRes.bind_eq_ok h
          injection h with h1 h2
          exact Or.inr ⟨_, _, h1.symm⟩

/-- The entry loop of the object branch only ever appends to its
accumulator. -/
theorem objectEntriesLoop_prefix :
    ∀ (fuel : Nat) (acc entries : List (astNode × astNode)) (p p' : parser),
      objectEntriesLoop fuel acc p = .ok entries p' → ∃ more, entries = acc ++ more := by
  intro fuel
  induction fuel with
  | zero => intro acc entries p p' h; exact absurd h (by simp [objectEntriesLoop])
  | succ n ih =>
    intro acc entries p p' h
    rw [objectEntriesLoop] at h
    split at h
    · injection h with h1 h2
      exact ⟨[], by simp [h1]⟩
    · cases hp : p.peek with
      | error m => rw [hp] at h; exact absurd h (by simp [liftP])
      | ok t =>
        rw [hp] at h
        simp only [liftP] at h
        split at h
        · injection h with h1 h2
          exact ⟨[], by simp [h1]⟩
        · obtain ⟨key, p1, h1, h⟩ := PRes.bind_eq_ok h
          obtain ⟨c1, p2, h2, h⟩ := PRes.bind_eq_ok h
          obtain ⟨val, p3, h3, h⟩ := PRes.bind_eq_ok h
          obtain ⟨c2, p4, h4, h⟩ := PRes.bind_eq_ok h
          obtain ⟨more, hm⟩ := ih _ _ _ _ h
          exact ⟨(key, val) :: more, by simpa using hm⟩

/-- The expression loop of the block branch only ever appends to its
accumulator. -/
theorem blockExprsLoop_prefix :
    ∀ (fuel : Nat) (acc exprs : List astNode) (p p' : parser),
      blockExprsLoop fuel acc p = .ok exprs p' → ∃ more, exprs = acc ++ more := by
  intro fuel
  induction fuel with
  | zero => intro acc exprs p p' h; exact absurd h (by simp [blockExprsLoop])
  | succ n ih =>
    intro acc exprs p p' h
    rw [blockExprsLoop] at h
    split at h
    · injection h with h1 h2
      exact ⟨[], by simp [h1]⟩
    · cases hp : p.peek with
      | error m => rw [hp] at h; exact absurd h (by simp [liftP])
      | ok t =>
        rw [hp] at h
        simp only [liftP] at h
        split at h
        · injection h with h1 h2
          exact ⟨[], by simp [h1]⟩
        · obtain ⟨expr, p1, h1, h⟩ := PRes.bind_eq_ok h
          obtain ⟨c1, p2, h2, h⟩ := PRes.bind_eq_ok h
          obtain ⟨more, hm⟩ := ih _ _ _ _ h
          exact ⟨expr :: more, by simpa using hm⟩

/-- The object outcome of a non-empty brace form: an object literal
whose first entry has the first parsed expression as its key, possibly
wrapped in an assignment by the trailing `parseMaybeAssignment`. -/
def objectResultOf (firstExpr res : astNode) : Prop :=
  ∃ v rest, res = .objectNode ((firstExpr, v) :: rest) ∨
    ∃ b r, res = .assignmentNode b (.objectNode ((firstExpr, v) :: rest)) r

/-- The block outcome of a non-empty brace form: a block whose first
expression is the first parsed expression. -/
def blockResultOf (firstExpr res : astNode) : Prop :=
  ∃ rest, res = .blockNode (firstExpr :: rest)

/-- C5: CONFIRMED.  After the first inner expression of a non-empty
`{…}` form has been parsed, the continuation decides by the single next
token and never revisits the decision: whenever it returns normally,
the result is an object literal continuing as `key : value , …` with
the first expression as the first key exactly when that token is a
colon, and otherwise a block whose first expression is followed by a
comma and further expressions. -/
theorem c5_brace_lookahead (fuel : Nat) (firstExpr res : astNode) (p p' : parser)
    (t : token) (hpeek : p.tokens[p.index]? = some t)
    (hok : braceTail fuel firstExpr p = .ok res p') :
    (t.kind = tokKind.colon → objectResultOf firstExpr res) ∧
    (t.kind ≠ tokKind.colon → blockResultOf firstExpr res) := by
  match fuel with
  | 0 => exact absurd hok (by simp [braceTail])
  | fuel + 1 =>
    rw [braceTail] at hok
    rw [if_neg (by simp [isEOF_false_of_peek hpeek])] at hok
    simp only [parser.peek, tokAt, hpeek, liftP] at hok
    by_cases hc : t.kind = tokKind.colon
    · rw [if_pos hc] at hok
      obtain ⟨val, p2, h1, hok⟩ := PRes.bind_eq_ok hok
      obtain ⟨c1, p3, h2, hok⟩ := PRes.bind_eq_ok hok
      obtain ⟨entries, p4, h3, hok⟩ := PRes.bind_eq_ok hok
      obtain ⟨c2, p5, h4, hok⟩ := PRes.bind_eq_ok hok
      obtain ⟨more, hm⟩ := objectEntriesLoop_prefix _ _ _ _ _ h3
      refine ⟨fun _ => ?_, fun hne => absurd hc hne⟩
      rcases parseMaybeAssignment_shape hok with h | ⟨b, r, h⟩
      · exact ⟨val, more, Or.inl (by rw [h, hm]; simp)⟩
      · exact ⟨val, more, Or.inr ⟨b, r, by rw [h, hm]; simp⟩⟩
    · rw [if_neg hc] at hok
      obtain ⟨c1, p2, h1, hok⟩ := PRes.bind_eq_ok hok
      obtain ⟨exprs, p3, h2, hok⟩ := PRes.bind_eq_ok hok
      obtain ⟨c2, p4, h3, hok⟩ := PRes.bind_eq_ok hok
      obtain ⟨more, hm⟩ := blockExprsLoop_prefix _ _ _ _ _ h2
      refine ⟨fun hcol => absurd hcol hc, fun _ => ?_⟩
      injection hok with h5 h6
      exact ⟨more, by rw [h5.symm, hm]; simp⟩

/-- Witness for C5 at the brace tails of `{1: 2,},` (colon after the
first expression: object) and `{1, 2,}` (comma after the first
expression: block). -/
theorem c5_witness :
    objectResultOf (.numberNode true 1 "")
      (.objectNode [(.numberNode true 1 "", .numberNode true 2 "")]) ∧
    blockResultOf (.numberNode true 1 "")
      (.blockNode [.numberNode true 1 "", .numberNode true 2 ""]) :=
  ⟨(c5_brace_lookahead 9 (.numberNode true 1 "")
      (.objectNode [(.numberNode true 1 "", .numberNode true 2 "")])
      (newParser [symTok .colon, numTok "2", symTok .comma, symTok .rightBrace, symTok .comma])
      { tokens := [symTok .colon, numTok "2", symTok .comma, symTok .rightBrace, symTok .comma],
        index := 4 }
      (symTok .colon) rfl rfl).1 rfl,
   (c5_brace_lookahead 9 (.numberNode true 1 "")
      (.blockNode [.numberNode true 1 "", .numberNode true 2 ""])
      (newParser [symTok .comma, numTok "2", symTok .comma, symTok .rightBrace])
      { tokens := [symTok .comma, numTok "2", symTok .comma, symTok .rightBrace], index := 4 }
      (symTok .comma) rfl rfl).2 (by decide)⟩
